import Mathlib

/-!
A shallow embedding of the `tsreflect` TypeScript type generator
(`tsreflect.go`).  Go's `reflect.Type` values are modelled as indices
(`TypeId`) into a finite universe of type descriptors; the generator's maps
become association lists; the unbounded recursions of the source (the
registration walk `add`, the renderer `typeOf` and its helpers, and the
`sequentialNamer` search loop) become fuel-indexed functions returning
`none` when the fuel runs out or where the source would fault.  The
renderer family is threaded through the generator state exactly as the
source's method calls are, so that the absence of mutation is a provable
property rather than a modelling artifact.  Warning emissions
(`g.warn(...)`) are counted in the second result component.  Custom typer
functions and `TypeScriptType` methods are modelled as functions of the
`optional` flag (in the source they also receive the generator, which none
of the built-in or claim-relevant typers consult).
-/

namespace TsReflect

/-- Association-list lookup, modelling a Go map read that distinguishes
presence (`v, ok := m[k]`). -/
def lookupA {α β : Type} [BEq α] : List (α × β) → α → Option β
  | [], _ => none
  | p :: ps, k => if p.1 == k then some p.2 else lookupA ps k

/-- Go map read with the zero value as default (`m[k]` without `ok`). -/
def lookupD {α β : Type} [BEq α] (l : List (α × β)) (k : α) (d : β) : β :=
  (lookupA l k).getD d

/-- Association-list update, modelling a Go map write `m[k] = v`. -/
def updateA {α β : Type} [BEq α] : List (α × β) → α → β → List (α × β)
  | [], k, v => [(k, v)]
  | p :: ps, k, v => if p.1 == k then (k, v) :: ps else p :: updateA ps k v

/-- Set insertion, modelling `m[k] = struct{}{}` on a Go set-map. -/
def insertS (l : List Nat) (a : Nat) : List Nat :=
  if l.contains a then l else l ++ [a]

/-- A stable identity for a Go `reflect.Type`: an index into the universe. -/
abbrev TypeId := Nat

/-- Marker identifying the three types whose typers `New` seeds
(`[]byte`, `time.Time`, `*big.Int`). -/
inductive Special where
  | byteSlice
  | time
  | bigInt
deriving DecidableEq

/-- A Go `reflect.StructField`: name, struct tag (as key/value pairs for
`Tag.Lookup`), exported flag, `Anonymous` flag and field type. -/
structure Field where
  name : String
  tags : List (String × String)
  exported : Bool
  anonymous : Bool
  type : TypeId

/-- The structural kind of a type, as dispatched on by the source.  All Go
numeric kinds (`Int`..`Float64`) render identically and are collapsed into
`int`.  `iface true` is the distinguished `error` interface type used as a
sentinel by `writeFuncDecl`. -/
inductive Kind where
  | bool
  | int
  | string
  | array (len : Nat) (elem : TypeId)
  | slice (elem : TypeId)
  | map (key : TypeId) (elem : TypeId)
  | pointer (elem : TypeId)
  | struct (name : String) (fields : List Field)
  | func (ins : List TypeId) (outs : List TypeId)
  | iface (isError : Bool)
  | unsupported

/-- A type descriptor: the reflection facts about one type identity that the
source consults.  `implMarshaler` is `typ.Implements(typeOfMarshaler)`;
`tsTyper` is `some f` when `typ.Implements(typeOfTypeScriptTyper)`, with `f`
the output of the type's `TypeScriptType` method. -/
structure TyDesc where
  kind : Kind
  implMarshaler : Bool
  tsTyper : Option (Bool → String)
  special : Option Special

/-- The finite universe of type identities reachable in a program. -/
structure Univ where
  descs : List TyDesc

/-- Descriptor of a type identity; indices outside the universe are
unsupported. -/
def Univ.desc (u : Univ) (t : TypeId) : TyDesc :=
  u.descs.getD t ⟨Kind.unsupported, false, none, none⟩

/-- `typ.Name()`: the declared name; empty for anonymous/unnamed types. -/
def descName (d : TyDesc) : String :=
  match d.kind with
  | .struct n _ => n
  | _ => ""

def isFuncKind (k : Kind) : Bool :=
  match k with
  | .func _ _ => true
  | _ => false

def isErrorKind (k : Kind) : Bool :=
  match k with
  | .iface e => e
  | _ => false

/-- `typ.Implements(typeOfTypeScriptTyper)`. -/
def implTyper (u : Univ) (t : TypeId) : Bool :=
  (u.desc t).tsTyper.isSome

/-- `hasInterface`: true when the interface is implemented, except that a
pointer whose pointee also implements it defers to the pointee. -/
def hasInterface (impl : TypeId → Bool) (u : Univ) (t : TypeId) : Bool :=
  match (u.desc t).kind with
  | .pointer e => if impl t then !(impl e) else impl t
  | _ => impl t

/-- `hasInterface(typeOfTypeScriptTyper, typ)`. -/
def hasInterfaceTyper (u : Univ) (t : TypeId) : Bool :=
  hasInterface (implTyper u) u t

/-- `hasInterface(typeOfMarshaler, typ)`. -/
def hasInterfaceMarshaler (u : Univ) (t : TypeId) : Bool :=
  hasInterface (fun x => (u.desc x).implMarshaler) u t

/-- A `Namer`; `none` models divergence of the search loop. -/
def Namer := TyDesc → (String → Bool) → Option String

/-- Fuel bounding the unbounded `for i := 2; ; i++` search. -/
def namerSearchFuel : Nat := 1000

/-- The body of `sequentialNamer`'s search loop. -/
def sequentialNamerAux (name : String) (isNameTaken : String → Bool) : Nat → Nat → Option String
  | 0, _ => none
  | fuel+1, i =>
    let candidate := name ++ Nat.repr i
    if !(isNameTaken candidate) then some candidate
    else sequentialNamerAux name isNameTaken fuel (i+1)

/-- `sequentialNamer`: the declared name if free, else `name2`, `name3`, …. -/
def sequentialNamer (name : String) (isNameTaken : String → Bool) : Option String :=
  if !(isNameTaken name) then some name
  else sequentialNamerAux name isNameTaken namerSearchFuel 2

/-- `DefaultNamer`. -/
def DefaultNamer : Namer := fun d isNameTaken => sequentialNamer (descName d) isNameTaken

/-- A named TypeScript declaration (`Declaration`); `Type'` is the source's
`Type` field. -/
structure Declaration where
  Name : String
  Type' : String
  IsFunction : Bool
deriving DecidableEq

/-- Generator state (`Generator`): the registry tables plus configuration.
`exportAll` is the source's `export` field; the `warn` sink is modelled by
counting emissions. -/
structure Generator where
  flatten : Bool
  warnings : Bool
  exportAll : Bool
  namer : Namer
  typers : List (TypeId × (Bool → String))
  types : List TypeId
  circular : List TypeId
  symbols : List (TypeId × String)
  names : List (String × TypeId)
  implementations : List (String × String)
  async : List (String × Bool)

def isNameTaken (g : Generator) (name : String) : Bool :=
  (lookupA g.names name).isSome

/-- The three typer functions `New` installs. -/
def builtinTyper : Special → Bool → String
  | .byteSlice, optional => if optional then "string" else "(string | null)"
  | .time, _ => "string"
  | .bigInt, optional => if optional then "number" else "(number | null)"

/-- The seed `typers` table of `New`: one entry per universe identity that
is `[]byte`, `time.Time` or `*big.Int`. -/
def seedTypers (u : Univ) : List (TypeId × (Bool → String)) :=
  (List.range u.descs.length).filterMap fun i =>
    match (u.desc i).special with
    | some s => some (i, builtinTyper s)
    | none => none

/-- `WithNamer`. -/
def WithNamer (namer : Namer) (g : Generator) : Generator := { g with namer := namer }

/-- `WithFlatten`. -/
def WithFlatten (g : Generator) : Generator := { g with flatten := true }

/-- `WithNoWarnings`. -/
def WithNoWarnings (g : Generator) : Generator := { g with warnings := false }

/-- `WithTyper`. -/
def WithTyper (typ : TypeId) (typer : Bool → String) (g : Generator) : Generator :=
  { g with typers := updateA g.typers typ typer }

/-- `ExportEverything`. -/
def ExportEverything (g : Generator) : Generator := { g with exportAll := true }

/-- `New`: defaults, then the options in order. -/
def New (u : Univ) (options : List (Generator → Generator)) : Generator :=
  options.foldl (fun g o => o g)
    { flatten := false
      warnings := true
      exportAll := false
      namer := DefaultNamer
      typers := seedTypers u
      types := []
      circular := []
      symbols := []
      names := []
      implementations := []
      async := [] }

/-- `hasTagOmit`: the json tag is exactly `-`, or, when no json tag is
present, the yaml tag is exactly `-`. -/
def hasTagOmit (f : Field) : Bool :=
  match lookupA f.tags "json" with
  | some tag => tag == "-"
  | none =>
    match lookupA f.tags "yaml" with
    | some tag => tag == "-"
    | none => false

/-- `countExportedFields`, fuelled; the `inr` form is the field loop. -/
def countExported : Nat → Univ → Sum TypeId (List Field) → Nat
  | 0, _, _ => 0
  | fuel+1, u, .inl typ =>
    match (u.desc typ).kind with
    | .struct _ fields => countExported fuel u (.inr fields)
    | _ => 0
  | _+1, _, .inr [] => 0
  | fuel+1, u, .inr (f :: fs) =>
    let rest := countExported fuel u (.inr fs)
    if !f.exported || hasTagOmit f then rest
    else if f.anonymous then countExported fuel u (.inl f.type) + rest
    else 1 + rest

/-- The two entry points of the registration walk: `addT` is `add`,
`fieldsT` is the field loop inside `add`'s struct case (with its running
`isCircular` accumulator). -/
inductive ATask where
  | addT (typ? : Option TypeId) (parent : Option TypeId) (name : String)
      (async : Bool) (impl : String)
  | fieldsT (typ : TypeId) (parent : Option TypeId) (hasName : Bool)
      (fields : List Field) (acc : Bool)

/-- The conditional circular-marking at the end of `add`'s struct case. -/
def markCircular (g : Generator) (typ : TypeId) (isCircular : Bool) : Generator :=
  if isCircular then { g with circular := insertS g.circular typ } else g

theorem markCircular_names (g : Generator) (typ : TypeId) (c : Bool) :
    (markCircular g typ c).names = g.names := by
  cases c <;> rfl

theorem markCircular_types (g : Generator) (typ : TypeId) (c : Bool) :
    (markCircular g typ c).types = g.types := by
  cases c <;> rfl

/-- The registration walk `add`.  `none` models fuel exhaustion, namer
divergence, or the source's panic when the namer returns a taken name.  The
boolean result is `add`'s cycle signal.  Note the short-circuit of Go's
`||` in the map case and in the field loop. -/
def addRun : Nat → Univ → Generator → ATask → Option (Generator × Bool)
  | 0, _, _, _ => none
  | fuel+1, u, g, .addT typ? parent name async impl =>
    match typ? with
    | none => some (g, false)
    | some typ =>
      if g.types.contains typ && !(isFuncKind (u.desc typ).kind) then
        some (g, some typ == parent)
      else
        let g1 := { g with types := insertS g.types typ }
        match (u.desc typ).kind with
        | .array _ elem => addRun fuel u g1 (.addT (some elem) parent name async impl)
        | .slice elem => addRun fuel u g1 (.addT (some elem) parent name async impl)
        | .map key elem =>
          match addRun fuel u g1 (.addT (some key) parent name async impl) with
          | none => none
          | some (g2, b1) =>
            if b1 then some (g2, true)
            else addRun fuel u g2 (.addT (some elem) parent name async impl)
        | .pointer elem => addRun fuel u g1 (.addT (some elem) parent name async impl)
        | .func _ _ =>
          some ({ g1 with names := updateA g1.names name typ
                          async := updateA g1.async name async
                          implementations := updateA g1.implementations name impl }, true)
        | .struct sname fields =>
          let hasName := sname != ""
          let hasExportedFields := decide (0 < countExported fuel u (.inl typ))
          match addRun fuel u g1 (.fieldsT typ parent hasName fields false) with
          | none => none
          | some (g2, isCircular) =>
            let g3 := markCircular g2 typ isCircular
            if hasName && hasExportedFields then
              match g3.namer (u.desc typ) (isNameTaken g3) with
              | none => none
              | some nm =>
                if isNameTaken g3 nm then none
                else some ({ g3 with symbols := updateA g3.symbols typ nm
                                     names := updateA g3.names nm typ }, false)
            else some (g3, false)
        | _ => some (g1, false)
  | fuel+1, u, g, .fieldsT typ parent hasName fields acc =>
    match fields with
    | [] => some (g, acc)
    | f :: fs =>
      if !f.exported || hasTagOmit f then
        addRun fuel u g (.fieldsT typ parent hasName fs acc)
      else if acc then
        addRun fuel u g (.fieldsT typ parent hasName fs acc)
      else
        match addRun fuel u g (.addT (some f.type) (if hasName then some typ else parent) f.name false "") with
        | none => none
        | some (g1, b) => addRun fuel u g1 (.fieldsT typ parent hasName fs b)

/-- `Add`. -/
def Add (fuel : Nat) (u : Univ) (g : Generator) (typ : TypeId) : Option Generator :=
  (addRun fuel u g (.addT (some typ) none "" false "")).map (fun r => r.1)

/-- `AddFunc`; more than one implementation body is the source's panic. -/
def AddFunc (fuel : Nat) (u : Univ) (g : Generator) (typ : TypeId) (name : String)
    (async : Bool) (implementation : List String) : Option Generator :=
  if implementation.length > 1 then none
  else (addRun fuel u g (.addT (some typ) none name async (implementation.headD ""))).map (fun r => r.1)

/-- `strings.ContainsRune`. -/
def containsRune (s : String) (c : Char) : Bool :=
  s.data.any (fun x => x == c)

def splitCharAux (c : Char) : List Char → List Char → List String
  | [], acc => [String.mk acc.reverse]
  | x :: xs, acc =>
    if x == c then String.mk acc.reverse :: splitCharAux c xs []
    else splitCharAux c xs (x :: acc)

/-- `strings.Split(s, sep)` for a one-character separator. -/
def splitChar (c : Char) (s : String) : List String :=
  splitCharAux c s.data []

def goQuoteChar (c : Char) : String :=
  if c == '\"' then "\\\"" else if c == '\\' then "\\\\" else String.mk [c]

/-- `fmt.Sprintf("%q", s)` for printable ASCII content. -/
def goQuote (s : String) : String :=
  "\"" ++ String.join (s.data.map goQuoteChar) ++ "\""

def joinSep (sep : String) : List String → String
  | [] => ""
  | [s] => s
  | s :: rest => s ++ sep ++ joinSep sep rest

/-- The tag resolution of `structField`: the effective property name, the
forced type text (`"string"` for a string-coercion directive, else empty),
and the omit-if-empty flag.  The json tag wins; the yaml tag is used only
when the json tag is absent or empty. -/
def structFieldInfo (f : Field) : String × String × Bool :=
  let tag0 := match lookupA f.tags "json" with
              | some jt => jt
              | none => ""
  let tag := match lookupA f.tags "yaml" with
             | some yt => if tag0 == "" then yt else tag0
             | none => tag0
  if tag != "" then
    if !(containsRune tag ',') then (tag, "", false)
    else
      let parts := splitChar ',' tag
      let name1 := if parts.getD 0 "" != "" then parts.getD 0 "" else f.name
      match parts.getD 1 "" with
      | "string" => (name1, "string", false)
      | "omitempty" => (name1, "", true)
      | _ => (name1, "", false)
  else (f.name, "", false)

/-- The rendering family: `typeOfT` is `typeOf`, `structDecl` is
`writeStructDecl`, `structFields` is `writeStructFields`, `structFieldR` is
`structField`, and `funcArgsR`/`funcOutsR`/`funcDecl` are the pieces of
`writeFuncDecl`. -/
inductive RTask where
  | typeOfT (typ? : Option TypeId) (optional : Bool)
  | structDecl (typ : TypeId)
  | structFields (fields : List Field)
  | structFieldR (f : Field)
  | funcArgsR (ins : List TypeId) (i : Nat)
  | funcOutsR (outs : List TypeId) (i : Nat)
  | funcDecl (typ : TypeId) (async : Bool) (impl : String)

/-- The renderer.  Results are `(text, warnings emitted, generator)`; the
generator is threaded through every sub-call exactly as the source threads
its receiver, `none` marks fuel exhaustion or a source fault (reflection
calls on a nil or non-struct type). -/
def render : Nat → Univ → Generator → RTask → Option (String × Nat × Generator)
  | 0, _, _, _ => none
  | fuel+1, u, g, .typeOfT typ? optional =>
    match typ? with
    | none => some ("any", 0, g)
    | some typ =>
      match (if hasInterfaceTyper u typ then (u.desc typ).tsTyper else none) with
      | some h => some (h optional, 0, g)
      | none =>
        match lookupA g.typers typ with
        | some typer => some (typer optional, 0, g)
        | none =>
          let w : Nat := if hasInterfaceMarshaler u typ && g.warnings then 1 else 0
          match (u.desc typ).kind with
          | .bool => some ("boolean", w, g)
          | .int => some ("number", w, g)
          | .string => some ("string", w, g)
          | .array len elem =>
            match render fuel u g (.typeOfT (some elem) false) with
            | none => none
            | some (e, w1, g1) =>
              some ("[" ++ joinSep ", " (List.replicate len e) ++ "]", w + w1, g1)
          | .slice elem =>
            match render fuel u g (.typeOfT (some elem) false) with
            | none => none
            | some (e, w1, g1) =>
              if optional then some (e ++ "[]", w + w1, g1)
              else some ("(" ++ e ++ "[] | null)", w + w1, g1)
          | .map key elem =>
            match render fuel u g (.typeOfT (some key) false) with
            | none => none
            | some (k, w1, g1) =>
              match render fuel u g1 (.typeOfT (some elem) false) with
              | none => none
              | some (v, w2, g2) =>
                if optional then
                  some ("\x7b [key in (" ++ k ++ ")]: (" ++ v ++ ") \x7d", w + w1 + w2, g2)
                else
                  some ("(\x7b [key in (" ++ k ++ ")]: (" ++ v ++ ") \x7d | null)", w + w1 + w2, g2)
          | .pointer elem =>
            match render fuel u g (.typeOfT (some elem) false) with
            | none => none
            | some (e, w1, g1) =>
              if optional then some (e, w + w1, g1)
              else some ("(" ++ e ++ " | null)", w + w1, g1)
          | .struct _ _ =>
            let name := lookupD g.symbols typ ""
            let isCircular := g.circular.contains typ
            if name == "" || (!isCircular && g.flatten) then
              match render fuel u g (.structDecl typ) with
              | none => none
              | some (s, w1, g1) => some (s, w + w1, g1)
            else some (name, w, g)
          | .iface _ => some ("any", w, g)
          | .func _ _ => some ("", w, g)
          | .unsupported => some ("", w, g)
  | fuel+1, u, g, .structDecl typ =>
    match (u.desc typ).kind with
    | .struct _ fl =>
      match render fuel u g (.structFields fl) with
      | none => none
      | some (s, w, g1) => some ("\x7b " ++ s ++ "\x7d", w, g1)
    | _ => none
  | fuel+1, u, g, .structFields fields =>
    match fields with
    | [] => some ("", 0, g)
    | f :: fs =>
      if !f.exported || hasTagOmit f then render fuel u g (.structFields fs)
      else if f.anonymous then
        match (u.desc f.type).kind with
        | .struct _ fl =>
          match render fuel u g (.structFields fl) with
          | none => none
          | some (s1, w1, g1) =>
            match render fuel u g1 (.structFields fs) with
            | none => none
            | some (s2, w2, g2) => some (s1 ++ s2, w1 + w2, g2)
        | _ => none
      else
        match render fuel u g (.structFieldR f) with
        | none => none
        | some (s1, w1, g1) =>
          match render fuel u g1 (.structFields fs) with
          | none => none
          | some (s2, w2, g2) => some (s1 ++ "; " ++ s2, w1 + w2, g2)
  | fuel+1, u, g, .structFieldR f =>
    let info := structFieldInfo f
    if info.2.1 == "" then
      match render fuel u g (.typeOfT (some f.type) info.2.2) with
      | none => none
      | some (t, w1, g1) =>
        if info.2.2 then some (goQuote info.1 ++ "?: " ++ t, w1, g1)
        else some (goQuote info.1 ++ ": " ++ t, w1, g1)
    else
      if info.2.2 then some (goQuote info.1 ++ "?: " ++ info.2.1, 0, g)
      else some (goQuote info.1 ++ ": " ++ info.2.1, 0, g)
  | fuel+1, u, g, .funcArgsR ins i =>
    match ins with
    | [] => some ("", 0, g)
    | a :: rest =>
      match render fuel u g (.typeOfT (some a) false) with
      | none => none
      | some (s, w1, g1) =>
        match render fuel u g1 (.funcArgsR rest (i+1)) with
        | none => none
        | some (s2, w2, g2) =>
          some ((if 0 < i then ", " else "") ++ "arg" ++ Nat.repr i ++ ": " ++ s ++ s2, w1 + w2, g2)
  | fuel+1, u, g, .funcOutsR outs i =>
    match outs with
    | [] => some ("", 0, g)
    | o :: rest =>
      match render fuel u g (.typeOfT (some o) false) with
      | none => none
      | some (s, w1, g1) =>
        match render fuel u g1 (.funcOutsR rest (i+1)) with
        | none => none
        | some (s2, w2, g2) =>
          some ((if 0 < i then ", " else "") ++ s ++ s2, w1 + w2, g2)
  | fuel+1, u, g, .funcDecl typ async impl =>
    match (u.desc typ).kind with
    | .func ins outs =>
      let outTypes := outs.filter (fun o => !(isErrorKind (u.desc o).kind))
      match render fuel u g (.funcArgsR ins 0) with
      | none => none
      | some (argsS, w1, g1) =>
        match render fuel u g1 (.funcOutsR outTypes 0) with
        | none => none
        | some (outsS, w2, g2) =>
          let body :=
            (if async then "Promise<" else "") ++
            (if outTypes.length == 0 then "void"
             else if 1 < outTypes.length then "(" ++ outsS ++ ")"
             else outsS) ++
            (if async then ">" else "")
          some ("(" ++ argsS ++ "): " ++ body ++
                (if impl != "" then "\x7b\n" ++ impl ++ "\n\x7d" else ""), w1 + w2, g2)
    | _ => none

/-- `TypeOf`: the public renderer entry point (`optional = false`). -/
def TypeOf (fuel : Nat) (u : Univ) (g : Generator) (typ? : Option TypeId) :
    Option (String × Nat × Generator) :=
  render fuel u g (.typeOfT typ? false)

/-- `hasCustomType`. -/
def hasCustomType (u : Univ) (g : Generator) (typ : TypeId) : Bool :=
  (lookupA g.typers typ).isSome || hasInterfaceTyper u typ

/-- `strings.ToLower(name[0:1]) + name[1:]`; faults on an empty name. -/
def lowerFirst (s : String) : Option String :=
  match s.data with
  | [] => none
  | c :: cs => some (String.mk (c.toLower :: cs))

def insertSorted (s : String) : List String → List String
  | [] => [s]
  | t :: ts => if s < t then s :: t :: ts else t :: insertSorted s ts

/-- `sort.Strings`: lexicographic ascending order. -/
def sortStrings (l : List String) : List String :=
  l.foldr insertSorted []

/-- The name collection of `Declarations`: every assigned struct symbol plus
every name bound to a function type. -/
def collectNames (u : Univ) (g : Generator) : List String :=
  g.symbols.map (fun p => p.2) ++
    g.names.filterMap (fun p => if isFuncKind (u.desc p.2).kind then some p.1 else none)

/-- The per-name loop of `Declarations`: skip when flattening a non-circular
type or when a custom typer exists, otherwise render a struct or function
declaration.  A name bound to no type is Go's nil `reflect.Type`: it is in
no table, so the flatten skip still fires, and otherwise the kind check
faults. -/
def declLoop : Nat → Univ → Generator → List String → Option (List Declaration × Nat × Generator)
  | 0, _, _, _ => none
  | _+1, _, g, [] => some ([], 0, g)
  | fuel+1, u, g, name :: rest =>
    match lookupA g.names name with
    | none =>
      if g.flatten then declLoop fuel u g rest
      else none
    | some typ =>
      if !(g.circular.contains typ) && g.flatten then declLoop fuel u g rest
      else if hasCustomType u g typ then declLoop fuel u g rest
      else if isFuncKind (u.desc typ).kind then
        match lowerFirst name with
        | none => none
        | some name1 =>
          match render fuel u g (.funcDecl typ (lookupD g.async name1 false) (lookupD g.implementations name1 "")) with
          | none => none
          | some (s, w, g1) =>
            match declLoop fuel u g1 rest with
            | none => none
            | some (ds, w2, g2) => some ({ Name := name1, Type' := s, IsFunction := true } :: ds, w + w2, g2)
      else
        match render fuel u g (.structDecl typ) with
        | none => none
        | some (s, w, g1) =>
          match declLoop fuel u g1 rest with
          | none => none
          | some (ds, w2, g2) => some ({ Name := name, Type' := s, IsFunction := false } :: ds, w + w2, g2)

/-- `Declarations`. -/
def Declarations (fuel : Nat) (u : Univ) (g : Generator) :
    Option (List Declaration × Nat × Generator) :=
  declLoop fuel u g (sortStrings (collectNames u g))

/-- The per-declaration text of `declarations`. -/
def declString (g : Generator) (jsDoc : Bool) (d : Declaration) : String :=
  if jsDoc then "/** @typedef \x7b" ++ d.Type' ++ "\x7d " ++ d.Name ++ " */"
  else
    (if g.exportAll then "export " else "") ++
    (if d.IsFunction then
      (if lookupD g.async d.Name false then "async " else "") ++ "function " ++ d.Name
     else "interface " ++ d.Name ++ " ") ++ d.Type'

/-- `declarations`: the newline-joined declaration block. -/
def declarationsStr (fuel : Nat) (u : Univ) (g : Generator) (jsDoc : Bool) :
    Option (String × Nat × Generator) :=
  match Declarations fuel u g with
  | none => none
  | some (ds, w, g1) => some (joinSep "\n" (ds.map (declString g jsDoc)), w, g1)

/-- `DeclarationsTypeScript`. -/
def DeclarationsTypeScript (fuel : Nat) (u : Univ) (g : Generator) :
    Option (String × Nat × Generator) :=
  declarationsStr fuel u g false

/-- `DeclarationsJSDoc`. -/
def DeclarationsJSDoc (fuel : Nat) (u : Univ) (g : Generator) :
    Option (String × Nat × Generator) :=
  declarationsStr fuel u g true

/-! ### Association-list and set lemmas -/

theorem lookupA_updateA_self {α β : Type} [BEq α] [LawfulBEq α]
    (l : List (α × β)) (k : α) (v : β) : lookupA (updateA l k v) k = some v := by
  induction l with
  | nil => simp [updateA, lookupA]
  | cons p ps ih =>
    by_cases h : p.1 == k
    · simp [updateA, h, lookupA]
    · simp only [updateA, h, if_false, Bool.false_eq_true, lookupA, ih]

theorem lookupA_updateA_ne {α β : Type} [BEq α] [LawfulBEq α]
    (l : List (α × β)) (k k' : α) (v : β) (h : k' ≠ k) :
    lookupA (updateA l k v) k' = lookupA l k' := by
  induction l with
  | nil =>
    have hk : (k == k') = false := by
      simp only [beq_eq_false_iff_ne]
      exact fun e => h e.symm
    simp [updateA, lookupA, hk]
  | cons p ps ih =>
    by_cases hp : p.1 == k
    · have hpk : p.1 = k := by exact eq_of_beq hp
      have h1 : (k == k') = false := by
        simp only [beq_eq_false_iff_ne]
        exact fun e => h e.symm
      have h2 : (p.1 == k') = false := by
        simp only [beq_eq_false_iff_ne, hpk]
        exact fun e => h e.symm
      simp [updateA, hp, lookupA, h1, h2]
    · simp only [updateA, hp, if_false, Bool.false_eq_true, lookupA, ih]

theorem updateA_of_lookupA_eq {α β : Type} [BEq α] [LawfulBEq α]
    (l : List (α × β)) (k : α) (v : β) (h : lookupA l k = some v) :
    updateA l k v = l := by
  induction l with
  | nil => simp [lookupA] at h
  | cons p ps ih =>
    by_cases hp : p.1 == k
    · have hpk : p.1 = k := eq_of_beq hp
      simp only [lookupA, hp, if_true] at h
      obtain rfl : p.2 = v := by injection h
      simp [updateA, hp, ← hpk]
    · simp only [lookupA, hp, Bool.false_eq_true, if_false] at h
      simp [updateA, hp, ih h]

theorem contains_insertS_self (l : List Nat) (a : Nat) :
    (insertS l a).contains a = true := by
  unfold insertS
  split
  · assumption
  · simp

theorem contains_insertS_of (l : List Nat) (a x : Nat)
    (h : l.contains x = true) : (insertS l a).contains x = true := by
  unfold insertS
  split
  · exact h
  · simp_all

theorem insertS_of_contains (l : List Nat) (a : Nat)
    (h : l.contains a = true) : insertS l a = l := by
  simp at h
  simp [insertS, h]

/-! ### Concrete universes used by the claims -/

/-- The `int` descriptor. -/
def intD : TyDesc := ⟨Kind.int, false, none, none⟩

/-- The `string` descriptor. -/
def strD : TyDesc := ⟨Kind.string, false, none, none⟩

/-- The `MyStruct` example of the repository tests: identities
`0 = MyStruct`, `1 = int`, `2 = string`. -/
def uMyStruct : Univ := ⟨[
  ⟨Kind.struct "MyStruct" [
    ⟨"Number", [], true, false, 1⟩,
    ⟨"String", [("json", ",string")], true, false, 1⟩,
    ⟨"Alias", [("json", "alias")], true, false, 2⟩,
    ⟨"Hidden", [("json", "-")], true, false, 2⟩], false, none, none⟩,
  intD, strD]⟩

/-- A struct with a field of pointer-to-self: `0 = struct n`, `1 = ptr 0`. -/
def uDirect (n fn : String) : Univ := ⟨[
  ⟨Kind.struct n [⟨fn, [], true, false, 1⟩], false, none, none⟩,
  ⟨Kind.pointer 0, false, none, none⟩]⟩

/-- A struct with a field of slice-of-self: `0 = struct n`, `1 = slice 0`. -/
def uSliceSelf (n fn : String) : Univ := ⟨[
  ⟨Kind.struct n [⟨fn, [], true, false, 1⟩], false, none, none⟩,
  ⟨Kind.slice 0, false, none, none⟩]⟩

/-- Two structs each holding a pointer to the other:
`0 = struct a`, `1 = ptr 2`, `2 = struct b`, `3 = ptr 0`. -/
def uMutual (a fa b fb : String) : Univ := ⟨[
  ⟨Kind.struct a [⟨fa, [], true, false, 1⟩], false, none, none⟩,
  ⟨Kind.pointer 2, false, none, none⟩,
  ⟨Kind.struct b [⟨fb, [], true, false, 3⟩], false, none, none⟩,
  ⟨Kind.pointer 0, false, none, none⟩]⟩

/-- Three distinct struct identities sharing the short name `X`. -/
def uCollide : Univ := ⟨[
  ⟨Kind.struct "X" [⟨"A", [], true, false, 3⟩], false, none, none⟩,
  ⟨Kind.struct "X" [⟨"A", [], true, false, 3⟩], false, none, none⟩,
  ⟨Kind.struct "X" [⟨"A", [], true, false, 3⟩], false, none, none⟩,
  intD]⟩

/-- A self-referential struct `S` whose second field is a fresh named
struct `T`: `0 = S`, `1 = ptr 0`, `2 = T`, `3 = int`. -/
def uShortStruct : Univ := ⟨[
  ⟨Kind.struct "S" [⟨"A", [], true, false, 1⟩, ⟨"B", [], true, false, 2⟩], false, none, none⟩,
  ⟨Kind.pointer 0, false, none, none⟩,
  ⟨Kind.struct "T" [⟨"X", [], true, false, 3⟩], false, none, none⟩,
  intD]⟩

/-- A struct `S` holding a map whose key type is cyclic (`ptr S`) and whose
value type is a fresh named struct `T`:
`0 = S`, `1 = map 2 3`, `2 = ptr 0`, `3 = T`, `4 = int`. -/
def uShortMap : Univ := ⟨[
  ⟨Kind.struct "S" [⟨"M", [], true, false, 1⟩], false, none, none⟩,
  ⟨Kind.map 2 3, false, none, none⟩,
  ⟨Kind.pointer 0, false, none, none⟩,
  ⟨Kind.struct "T" [⟨"X", [], true, false, 4⟩], false, none, none⟩,
  intD]⟩

/-- A struct named `X` plus an unrelated function type:
`0 = struct X`, `1 = int`, `2 = func`. -/
def uRebind : Univ := ⟨[
  ⟨Kind.struct "X" [⟨"A", [], true, false, 1⟩], false, none, none⟩,
  intD,
  ⟨Kind.func [] [], false, none, none⟩]⟩

/-- A struct `M` implementing `json.Marshaler` and `TypeScriptTyper` whose
`TypeScriptType` method returns `h optional`. -/
def uMarshalTS (h : Bool → String) : Univ := ⟨[
  ⟨Kind.struct "M" [⟨"A", [], true, false, 1⟩], true, some h, none⟩,
  intD]⟩

/-- A struct `M` implementing `json.Marshaler` only. -/
def uMarshalPlain : Univ := ⟨[
  ⟨Kind.struct "M" [⟨"A", [], true, false, 1⟩], true, none, none⟩,
  intD]⟩

/-- A struct `M` with a value-receiver `MarshalJSON` and `TypeScriptType`,
plus the pointer type `*M` (which therefore also implements both):
`0 = M`, `1 = int`, `2 = ptr M`. -/
def uMarshalPtr (h : Bool → String) : Univ := ⟨[
  ⟨Kind.struct "M" [⟨"A", [], true, false, 1⟩], true, some h, none⟩,
  intD,
  ⟨Kind.pointer 0, true, some h, none⟩]⟩

/-- A one-type universe holding only `int`. -/
def uJustInt : Univ := ⟨[intD]⟩

/-- A generator with the given flatten setting, as built by `New`. -/
def mkG (u : Univ) (flat : Bool) : Generator :=
  New u (if flat then [WithFlatten] else [])

/-! ### Claim theorems -/

/-- Claim C3: registering `MyStruct` (fields `Number int`,
`String int json:",string"`, `Alias string json:"alias"`,
`Hidden string json:"-"`) with a default generator yields exactly the
single declaration
`interface MyStruct { "Number": number; "String": string; "alias": string; }`:
three of the four fields, in declaration order, the string-coerced field as
`string`, the renamed field under its tag name, and `Hidden` absent. -/
theorem c3_round_trip :
    ((Add 30 uMyStruct (New uMyStruct []) 0).bind
        (fun g => DeclarationsTypeScript 20 uMyStruct g)).map (fun r => r.1)
      = some "interface MyStruct \x7b \"Number\": number; \"String\": string; \"alias\": string; \x7d"
    ∧ ((Add 30 uMyStruct (New uMyStruct []) 0).bind
        (fun g => Declarations 20 uMyStruct g)).map (fun r => r.1.map Declaration.Name)
      = some ["MyStruct"] :=
  ⟨by decide, by decide⟩

/-- Claim C5: under the default naming strategy, three distinct struct
identities sharing the short name `X` are assigned `X`, `X2` and `X3`, in
registration order. -/
theorem c5_sequential_names :
    (((Add 30 uCollide (New uCollide []) 0).bind (fun g => Add 30 uCollide g 1)).bind
        (fun g => Add 30 uCollide g 2)).map (fun g => (g.symbols, g.names))
      = some ([(0, "X"), (1, "X2"), (2, "X3")], [("X", 0), ("X2", 1), ("X3", 2)]) := by
  decide

/-- Claim C10: a field is tag-omitted exactly when its json tag is the
single character `-`, or, when no json tag is present, its yaml tag is
`-`; in particular `json:"-,"` is not omitted and renders with the quoted
literal property name `-`. -/
theorem c10_tag_omit_exact :
    (∀ f : Field, hasTagOmit f = true ↔
      (lookupA f.tags "json" = some "-" ∨
        (lookupA f.tags "json" = none ∧ lookupA f.tags "yaml" = some "-")))
    ∧ (render 10 uMyStruct (New uMyStruct [])
        (.structFieldR ⟨"Hidden", [("json", "-,")], true, false, 1⟩)).map (fun r => (r.1, r.2.1))
      = some ("\"-\": number", 0)
    ∧ hasTagOmit ⟨"Hidden", [("json", "-,")], true, false, 1⟩ = false := by
  refine ⟨?_, rfl, rfl⟩
  intro f
  unfold hasTagOmit
  cases hj : lookupA f.tags "json" with
  | some tag => simp [hj, beq_iff_eq]
  | none => cases hy : lookupA f.tags "yaml" with
    | some tag => simp [hy, beq_iff_eq]
    | none => simp [hy]

/-- Claim C8: a type with both the `json.Marshaler` capability and a
`TypeScriptTyper` override renders the override's output with no warning;
with only a registered typer, likewise; with neither override, exactly one
warning is emitted per render call (none under `WithNoWarnings`) and the
structural form is produced; a pointer whose pointee carries the override
renders using the pointee override's output (with the pointer null
wrapper) and no warning. -/
theorem c8_override_precedence :
    (∀ (h : Bool → String) (opt : Bool),
      render 5 (uMarshalTS h) (New (uMarshalTS h) []) (.typeOfT (some 0) opt)
        = some (h opt, 0, New (uMarshalTS h) []))
    ∧ (∀ (f : Bool → String) (opt : Bool),
      render 5 uMarshalPlain (New uMarshalPlain [WithTyper 0 f]) (.typeOfT (some 0) opt)
        = some (f opt, 0, New uMarshalPlain [WithTyper 0 f]))
    ∧ TypeOf 5 uMarshalPlain (New uMarshalPlain []) (some 0)
        = some ("\x7b \"A\": number; \x7d", 1, New uMarshalPlain [])
    ∧ TypeOf 5 uMarshalPlain (New uMarshalPlain [WithNoWarnings]) (some 0)
        = some ("\x7b \"A\": number; \x7d", 0, New uMarshalPlain [WithNoWarnings])
    ∧ (∀ h : Bool → String,
      TypeOf 6 (uMarshalPtr h) (New (uMarshalPtr h) []) (some 2)
        = some ("(" ++ h false ++ " | null)", 0, New (uMarshalPtr h) [])) :=
  ⟨fun _ _ => rfl, fun _ _ => rfl, rfl, rfl, fun _ => rfl⟩

/-- Claim C1, counterexample: for two structs `A` and `B` each pointing to
the other, registration completes and names both, but neither identity is
marked circular — the `circular` table stays empty, contradicting the
claim that every mutual self-reference is marked circular. -/
theorem c1_mutual_not_circular :
    (Add 30 (uMutual "A" "NB" "B" "NA") (New (uMutual "A" "NB" "B" "NA") []) 0).map
        (fun g => (g.circular, g.symbols))
      = some ([], [(2, "B"), (0, "A")]) := by
  decide

/-- Claim C2, counterexample: in `uShortStruct`, field `A` (pointer to the
enclosing struct `S`) signals a cycle, and the following field `B` of
fresh named struct type `T` is then never traversed: `T` is not visited,
not given a symbol and not bound in `names`, contradicting the claim that
every exported non-omitted field is recursed into. -/
theorem c2_second_field_skipped :
    (Add 30 uShortStruct (New uShortStruct []) 0).map
        (fun g => (g.types, lookupA g.symbols 2, lookupA g.names "T"))
      = some ([0, 1], none, none) := by
  decide

/-- Claim C2, amended: traversal short-circuits on the cycle signal.  For a
map whose key traversal signals a cycle, the overall result is exactly the
key traversal's state and `true` — the value type is not recursed into.
The second conjunct exhibits the struct analogue: after field `A` of
`uShortStruct.S` signals a cycle, field `B`'s type `T` stays untraversed
and unregistered. -/
theorem c2_shortcircuit_or :
    (∀ (fuel : Nat) (u : Univ) (g : Generator) (t k v : TypeId) (p : Option TypeId)
        (nm : String) (asy : Bool) (im : String) (g1 : Generator),
      (u.desc t).kind = .map k v →
      g.types.contains t = false →
      addRun fuel u { g with types := insertS g.types t } (.addT (some k) p nm asy im) = some (g1, true) →
      addRun (fuel+1) u g (.addT (some t) p nm asy im) = some (g1, true))
    ∧ (Add 30 uShortStruct (New uShortStruct []) 0).map
        (fun g => (lookupA g.symbols 2, g.types.contains 2))
      = some (none, false) := by
  constructor
  · intro fuel u g t k v p nm asy im g1 hk hc hkey
    simp only [addRun, hc, Bool.false_and, Bool.false_eq_true, if_false, hk, hkey]
    simp
  · decide

/-- The generator state at which `uShortMap`'s map type is about to be
traversed (`S` already visited). -/
def gSM0 : Generator := { New uShortMap [] with types := [0] }

/-- The state after the key branch of `uShortMap`'s map signalled the
cycle: the value-side struct `T` (identity `3`) was never visited. -/
def gSM1 : Generator := { New uShortMap [] with types := [0, 1, 2] }

/-- Witness for the short-circuit theorem at `uShortMap`. -/
theorem c2_shortcircuit_or_witness :
    ((uShortMap.desc 1).kind = .map 2 3
      ∧ gSM0.types.contains 1 = false
      ∧ addRun 27 uShortMap { gSM0 with types := insertS gSM0.types 1 }
          (.addT (some 2) (some 0) "M" false "") = some (gSM1, true))
    ∧ addRun 28 uShortMap gSM0 (.addT (some 1) (some 0) "M" false "") = some (gSM1, true) :=
  ⟨⟨rfl, rfl, rfl⟩,
    c2_shortcircuit_or.1 27 uShortMap gSM0 1 2 3 (some 0) "M" false "" gSM1 rfl rfl rfl⟩

/-- Claim C4: for a registered non-circular named struct with no override,
flatten-off renders the registered name (with no warning), flatten-on
renders exactly the inline structural body (`writeStructDecl`), and under
flatten the type's entry is skipped by the `Declarations` loop. -/
theorem c4_flatten_policy (u : Univ) (g : Generator) (t : TypeId) (sn : String)
    (fl : List Field) (nm : String)
    (hk : (u.desc t).kind = .struct sn fl)
    (hts : (u.desc t).tsTyper = none)
    (htyper : lookupA g.typers t = none)
    (hmar : (u.desc t).implMarshaler = false)
    (hsym : lookupA g.symbols t = some nm)
    (hnm : nm ≠ "")
    (hcirc : g.circular.contains t = false) :
    (g.flatten = false → ∀ fuel,
      render (fuel+1) u g (.typeOfT (some t) false) = some (nm, 0, g))
    ∧ (g.flatten = true → ∀ fuel,
      render (fuel+1) u g (.typeOfT (some t) false) = render fuel u g (.structDecl t))
    ∧ (g.flatten = true → ∀ (df : Nat) (ns : List String),
      lookupA g.names nm = some t →
      declLoop (df+1) u g (nm :: ns) = declLoop df u g ns) := by
  have hnm' : (nm == "") = false := by
    simp only [beq_eq_false_iff_ne]
    exact hnm
  have hTyper : hasInterfaceTyper u t = false := by
    simp [hasInterfaceTyper, hasInterface, hk, implTyper, hts]
  have hMar : hasInterfaceMarshaler u t = false := by
    simp [hasInterfaceMarshaler, hasInterface, hk, hmar]
  refine ⟨?_, ?_, ?_⟩
  · intro hflat fuel
    simp [render, hTyper, htyper, hMar, hk, lookupD, hsym, hnm', hcirc, hflat]
  · intro hflat fuel
    simp only [render, hTyper, Bool.false_eq_true, if_false, htyper, hMar, Bool.false_and,
      hk, lookupD, hsym, Option.getD_some, hnm', hcirc, Bool.not_false, hflat,
      Bool.true_and, Bool.false_or, if_true]
    cases render fuel u g (.structDecl t) with
    | none => rfl
    | some r => cases r with
      | mk s wg => cases wg with
        | mk w1 g1 => simp
  · intro hflat df ns hname
    have hcond : (!(g.circular.contains t) && g.flatten) = true := by
      rw [hcirc, hflat]
      rfl
    simp only [declLoop, hname, hcond, if_true]

/-- The generator state after registering `uMyStruct` with flatten off. -/
def gMyOff : Generator :=
  { New uMyStruct [] with
      types := [0, 1, 2]
      symbols := [(0, "MyStruct")]
      names := [("MyStruct", 0)] }

/-- The same registry with the flatten option set. -/
def gMyOn : Generator := { gMyOff with flatten := true }

/-- Witness for the flatten-policy theorem at `uMyStruct`. -/
theorem c4_flatten_policy_witness :
    render 11 uMyStruct gMyOff (.typeOfT (some 0) false) = some ("MyStruct", 0, gMyOff)
    ∧ render 11 uMyStruct gMyOn (.typeOfT (some 0) false) = render 10 uMyStruct gMyOn (.structDecl 0)
    ∧ declLoop 11 uMyStruct gMyOn ["MyStruct"] = declLoop 10 uMyStruct gMyOn [] := by
  refine ⟨?_, ?_, ?_⟩
  · exact (c4_flatten_policy uMyStruct gMyOff 0 "MyStruct"
      [⟨"Number", [], true, false, 1⟩, ⟨"String", [("json", ",string")], true, false, 1⟩,
        ⟨"Alias", [("json", "alias")], true, false, 2⟩, ⟨"Hidden", [("json", "-")], true, false, 2⟩]
      "MyStruct" rfl rfl rfl rfl rfl (by decide) rfl).1 rfl 10
  · exact (c4_flatten_policy uMyStruct gMyOn 0 "MyStruct"
      [⟨"Number", [], true, false, 1⟩, ⟨"String", [("json", ",string")], true, false, 1⟩,
        ⟨"Alias", [("json", "alias")], true, false, 2⟩, ⟨"Hidden", [("json", "-")], true, false, 2⟩]
      "MyStruct" rfl rfl rfl rfl rfl (by decide) rfl).2.1 rfl 10
  · exact (c4_flatten_policy uMyStruct gMyOn 0 "MyStruct"
      [⟨"Number", [], true, false, 1⟩, ⟨"String", [("json", ",string")], true, false, 1⟩,
        ⟨"Alias", [("json", "alias")], true, false, 2⟩, ⟨"Hidden", [("json", "-")], true, false, 2⟩]
      "MyStruct" rfl rfl rfl rfl rfl (by decide) rfl).2.2 rfl 10 [] rfl

/-- Claim C6, counterexample: after `Add` binds the name `X` to the struct
identity `0`, `AddFunc` with the same name rebinds `X` to the function
identity `2` — a bound name is rebound to a different type identity. -/
theorem c6_name_rebound :
    (Add 30 uRebind (New uRebind []) 0).map Generator.names = some [("X", 0)]
    ∧ ((Add 30 uRebind (New uRebind []) 0).bind
        (fun g => AddFunc 30 uRebind g 2 "X" false [])).map Generator.names
      = some [("X", 2)] :=
  ⟨by decide, by decide⟩

/-- No renderer task mutates the threaded generator state. -/
theorem render_frame : ∀ (fuel : Nat) (u : Univ) (g : Generator) (task : RTask)
    (s : String) (w : Nat) (g' : Generator),
    render fuel u g task = some (s, w, g') → g' = g := by
  intro fuel
  induction fuel with
  | zero => intro u g task s w g' h; simp [render] at h
  | succ fuel ih =>
    intro u g task s w g' h
    cases task
    all_goals simp only [render] at h
    all_goals repeat' split at h
    all_goals try (cases h)
    all_goals first
      | rfl
      | (exact ih _ _ _ _ _ _ (by assumption))
      | (exact (ih _ _ _ _ _ _ (by assumption)).trans (ih _ _ _ _ _ _ (by assumption)))

/-- The declaration loop does not mutate the threaded generator state. -/
theorem declLoop_frame : ∀ (fuel : Nat) (u : Univ) (g : Generator) (ns : List String)
    (ds : List Declaration) (w : Nat) (g' : Generator),
    declLoop fuel u g ns = some (ds, w, g') → g' = g := by
  intro fuel
  induction fuel with
  | zero => intro u g ns ds w g' h; simp [declLoop] at h
  | succ fuel ih =>
    intro u g ns ds w g' h
    cases ns
    all_goals simp only [declLoop] at h
    all_goals repeat' split at h
    all_goals try (cases h)
    all_goals first
      | rfl
      | (exact ih _ _ _ _ _ _ (by assumption))
      | (exact (ih _ _ _ _ _ _ (by assumption)).trans
          (render_frame _ _ _ _ _ _ _ (by assumption)))

/-- Claim C9: the read operations `TypeOf` and `Declarations` leave the
generator state unchanged — whenever they succeed, the generator they
return (threaded through every internal step exactly as the source threads
its receiver) is the one they were given; their only side channel is the
warning count. -/
theorem c9_reads_do_not_mutate :
    (∀ (fuel : Nat) (u : Univ) (g : Generator) (typ? : Option TypeId)
        (s : String) (w : Nat) (g' : Generator),
      TypeOf fuel u g typ? = some (s, w, g') → g' = g)
    ∧ (∀ (fuel : Nat) (u : Univ) (g : Generator) (ds : List Declaration)
        (w : Nat) (g' : Generator),
      Declarations fuel u g = some (ds, w, g') → g' = g) :=
  ⟨fun fuel u g typ? s w g' h => render_frame fuel u g (.typeOfT typ? false) s w g' h,
   fun fuel u g ds w g' h => declLoop_frame fuel u g (sortStrings (collectNames u g)) ds w g' h⟩

/-- Witness for the read-purity theorem on the one-type universe. -/
theorem c9_reads_do_not_mutate_witness :
    (TypeOf 3 uJustInt (New uJustInt []) (some 0) = some ("number", 0, New uJustInt [])
      ∧ Declarations 3 uJustInt (New uJustInt []) = some ([], 0, New uJustInt []))
    ∧ New uJustInt [] = New uJustInt [] :=
  ⟨⟨rfl, rfl⟩,
    c9_reads_do_not_mutate.1 3 uJustInt (New uJustInt []) (some 0) "number" 0
      (New uJustInt []) rfl⟩

/-- A namer rejection (`isNameTaken` false) means the name is unbound. -/
theorem isNameTaken_false_lookup {g : Generator} {nm : String}
    (h : ¬(isNameTaken g nm = true)) : lookupA g.names nm = none := by
  cases hl : lookupA g.names nm with
  | none => rfl
  | some v =>
    exact absurd (by unfold isNameTaken; rw [hl]; rfl) h

/-- Across any registration step, an existing `names` binding is either
preserved or overwritten by a function-kind identity (the unconditional
write of the `func` branch); the struct-naming step never rebinds, because
it binds only names the namer verified to be free. -/
theorem addRun_names_pres : ∀ (fuel : Nat) (u : Univ) (g : Generator) (task : ATask)
    (g' : Generator) (b : Bool), addRun fuel u g task = some (g', b) →
    ∀ (nm : String) (t0 : TypeId), lookupA g.names nm = some t0 →
      lookupA g'.names nm = some t0
        ∨ ∃ t1, lookupA g'.names nm = some t1 ∧ isFuncKind (u.desc t1).kind = true := by
  intro fuel
  induction fuel with
  | zero => intro u g task g' b h; simp [addRun] at h
  | succ fuel ih =>
    intro u g task g' b h nm t0 h0
    cases task with
    | addT typ? parent name asy impl =>
      cases typ? with
      | none =>
        simp only [addRun] at h
        cases h
        exact Or.inl h0
      | some typ =>
        simp only [addRun] at h
        split at h
        · cases h
          exact Or.inl h0
        · split at h
          · exact ih _ _ _ _ _ h nm t0 h0
          · exact ih _ _ _ _ _ h nm t0 h0
          · split at h
            · cases h
            · rename_i g2 b1 heq1
              split at h
              · cases h
                exact ih _ _ _ _ _ heq1 nm t0 h0
              · rcases ih _ _ _ _ _ heq1 nm t0 h0 with hp | ⟨t1, hl, hk⟩
                · exact ih _ _ _ _ _ h nm t0 hp
                · rcases ih _ _ _ _ _ h nm t1 hl with hp2 | ⟨t2, hl2, hk2⟩
                  · exact Or.inr ⟨t1, hp2, hk⟩
                  · exact Or.inr ⟨t2, hl2, hk2⟩
          · exact ih _ _ _ _ _ h nm t0 h0
          · rename_i ins outs hkind
            cases h
            by_cases hnn : nm = name
            · subst hnn
              refine Or.inr ⟨typ, ?_, ?_⟩
              · exact lookupA_updateA_self _ _ _
              · rw [hkind]
                rfl
            · left
              show lookupA (updateA g.names name typ) nm = some t0
              rw [lookupA_updateA_ne _ _ _ _ hnn]
              exact h0
          · rename_i sname fields hkind
            split at h
            · cases h
            · rename_i g2 isC heqF
              split at h
              · split at h
                · cases h
                · rename_i nm' heqN
                  split at h
                  · cases h
                  · rename_i hTaken
                    cases h
                    have hfresh : lookupA g2.names nm' = none := by
                      have hx := isNameTaken_false_lookup hTaken
                      rwa [markCircular_names] at hx
                    rcases ih _ _ _ _ _ heqF nm t0 h0 with hp | ⟨t1, hl, hk⟩
                    · left
                      have hne : nm ≠ nm' := by
                        intro e
                        rw [e, hfresh] at hp
                        cases hp
                      show lookupA (updateA (markCircular g2 typ isC).names nm' typ) nm = some t0
                      rw [markCircular_names, lookupA_updateA_ne _ _ _ _ hne]
                      exact hp
                    · right
                      have hne : nm ≠ nm' := by
                        intro e
                        rw [e, hfresh] at hl
                        cases hl
                      refine ⟨t1, ?_, hk⟩
                      show lookupA (updateA (markCircular g2 typ isC).names nm' typ) nm = some t1
                      rw [markCircular_names, lookupA_updateA_ne _ _ _ _ hne]
                      exact hl
              · cases h
                rw [markCircular_names]
                exact ih _ _ _ _ _ heqF nm t0 h0
          · cases h
            exact Or.inl h0
    | fieldsT typ parent hasName fields acc =>
      cases fields with
      | nil =>
        simp only [addRun] at h
        cases h
        exact Or.inl h0
      | cons f fs =>
        simp only [addRun] at h
        split at h
        · exact ih _ _ _ _ _ h nm t0 h0
        · split at h
          · exact ih _ _ _ _ _ h nm t0 h0
          · split at h
            · cases h
            · rename_i g1 b1 heq1
              rcases ih _ _ _ _ _ heq1 nm t0 h0 with hp | ⟨t1, hl, hk⟩
              · exact ih _ _ _ _ _ h nm t0 hp
              · rcases ih _ _ _ _ _ h nm t1 hl with hp2 | ⟨t2, hl2, hk2⟩
                · exact Or.inr ⟨t1, hp2, hk⟩
                · exact Or.inr ⟨t2, hl2, hk2⟩

/-- Claim C6, amended: whenever `Add` or `AddFunc` completes and an
already-bound name ends up bound to a different type identity, the new
identity is of function kind — the struct-naming step never rebinds, but
the function branch writes its binding unconditionally. -/
theorem c6_rebind_only_to_func :
    (∀ (fuel : Nat) (u : Univ) (g : Generator) (t : TypeId) (g' : Generator)
        (nm : String) (t0 t1 : TypeId),
      Add fuel u g t = some g' →
      lookupA g.names nm = some t0 → lookupA g'.names nm = some t1 →
      t1 = t0 ∨ isFuncKind (u.desc t1).kind = true)
    ∧ (∀ (fuel : Nat) (u : Univ) (g : Generator) (t : TypeId) (name : String)
        (asy : Bool) (impls : List String) (g' : Generator)
        (nm : String) (t0 t1 : TypeId),
      AddFunc fuel u g t name asy impls = some g' →
      lookupA g.names nm = some t0 → lookupA g'.names nm = some t1 →
      t1 = t0 ∨ isFuncKind (u.desc t1).kind = true) := by
  constructor
  · intro fuel u g t g' nm t0 t1 h h0 h1
    cases hadd : addRun fuel u g (.addT (some t) none "" false "") with
    | none => rw [Add, hadd] at h; cases h
    | some r =>
      rw [Add, hadd] at h
      simp only [Option.map_some'] at h
      cases h
      rcases addRun_names_pres fuel u g _ r.1 r.2 hadd nm t0 h0 with hp | ⟨tx, hl, hk⟩
      · rw [h1] at hp
        exact Or.inl (by injection hp)
      · rw [h1] at hl
        obtain rfl : t1 = tx := by injection hl
        exact Or.inr hk
  · intro fuel u g t name asy impls g' nm t0 t1 h h0 h1
    rw [AddFunc] at h
    split at h
    · cases h
    · cases hadd : addRun fuel u g (.addT (some t) none name asy (impls.headD "")) with
      | none => rw [hadd] at h; cases h
      | some r =>
        rw [hadd] at h
        simp only [Option.map_some'] at h
        cases h
        rcases addRun_names_pres fuel u g _ r.1 r.2 hadd nm t0 h0 with hp | ⟨tx, hl, hk⟩
        · rw [h1] at hp
          exact Or.inl (by injection hp)
        · rw [h1] at hl
          obtain rfl : t1 = tx := by injection hl
          exact Or.inr hk

/-- The registry of `uRebind` after `Add` of the struct `X`. -/
def gRB1 : Generator :=
  { New uRebind [] with
      types := [0, 1]
      symbols := [(0, "X")]
      names := [("X", 0)] }

/-- The registry after `AddFunc` then rebinds `X` to the function type. -/
def gRB2 : Generator :=
  { gRB1 with
      types := [0, 1, 2]
      names := [("X", 2)]
      async := [("X", false)]
      implementations := [("X", "")] }

/-- Witness for the amended rebinding theorem at `uRebind`. -/
theorem c6_rebind_only_to_func_witness :
    (AddFunc 30 uRebind gRB1 2 "X" false [] = some gRB2
      ∧ lookupA gRB1.names "X" = some 0 ∧ lookupA gRB2.names "X" = some 2)
    ∧ ((2 : TypeId) = 0 ∨ isFuncKind (uRebind.desc 2).kind = true) :=
  ⟨⟨rfl, rfl, rfl⟩,
    c6_rebind_only_to_func.2 30 uRebind gRB1 2 "X" false [] gRB2 "X" 0 2 rfl rfl rfl⟩

/-- Registration only grows the visited-set `types`. -/
theorem addRun_types_mono : ∀ (fuel : Nat) (u : Univ) (g : Generator) (task : ATask)
    (g' : Generator) (b : Bool), addRun fuel u g task = some (g', b) →
    ∀ x : TypeId, g.types.contains x = true → g'.types.contains x = true := by
  intro fuel
  induction fuel with
  | zero => intro u g task g' b h; simp [addRun] at h
  | succ fuel ih =>
    intro u g task g' b h x h0
    cases task with
    | addT typ? parent name asy impl =>
      cases typ? with
      | none =>
        simp only [addRun] at h
        cases h
        exact h0
      | some typ =>
        simp only [addRun] at h
        split at h
        · cases h
          exact h0
        · split at h
          · exact ih _ _ _ _ _ h x (contains_insertS_of _ _ _ h0)
          · exact ih _ _ _ _ _ h x (contains_insertS_of _ _ _ h0)
          · split at h
            · cases h
            · rename_i g2 b1 heq1
              have hp1 := ih _ _ _ _ _ heq1 x (contains_insertS_of _ _ _ h0)
              split at h
              · cases h
                exact hp1
              · exact ih _ _ _ _ _ h x hp1
          · exact ih _ _ _ _ _ h x (contains_insertS_of _ _ _ h0)
          · cases h
            exact contains_insertS_of _ _ _ h0
          · rename_i sname fields hkind
            split at h
            · cases h
            · rename_i g2 isC heqF
              have hp2 := ih _ _ _ _ _ heqF x (contains_insertS_of _ _ _ h0)
              split at h
              · split at h
                · cases h
                · rename_i nm' heqN
                  split at h
                  · cases h
                  · cases h
                    show (markCircular g2 typ isC).types.contains x = true
                    rw [markCircular_types]
                    exact hp2
              · cases h
                rw [markCircular_types]
                exact hp2
          · cases h
            exact contains_insertS_of _ _ _ h0
    | fieldsT typ parent hasName fields acc =>
      cases fields with
      | nil =>
        simp only [addRun] at h
        cases h
        exact h0
      | cons f fs =>
        simp only [addRun] at h
        split at h
        · exact ih _ _ _ _ _ h x h0
        · split at h
          · exact ih _ _ _ _ _ h x h0
          · split at h
            · cases h
            · rename_i g1 b1 heq1
              exact ih _ _ _ _ _ h x (ih _ _ _ _ _ heq1 x h0)

/-- After a registration step on a type, that type is in `types`. -/
theorem addRun_visits : ∀ (fuel : Nat) (u : Univ) (g : Generator) (typ : TypeId)
    (parent : Option TypeId) (name : String) (asy : Bool) (impl : String)
    (g' : Generator) (b : Bool),
    addRun fuel u g (.addT (some typ) parent name asy impl) = some (g', b) →
    g'.types.contains typ = true := by
  intro fuel u g typ parent name asy impl g' b h
  cases fuel with
  | zero => simp [addRun] at h
  | succ fuel =>
    simp only [addRun] at h
    split at h
    · rename_i hcond
      cases h
      simp only [Bool.and_eq_true] at hcond
      exact hcond.1
    · split at h
      · exact addRun_types_mono _ _ _ _ _ _ h typ (contains_insertS_self _ _)
      · exact addRun_types_mono _ _ _ _ _ _ h typ (contains_insertS_self _ _)
      · split at h
        · cases h
        · rename_i g2 b1 heq1
          have hp1 := addRun_types_mono _ _ _ _ _ _ heq1 typ (contains_insertS_self _ _)
          split at h
          · cases h
            exact hp1
          · exact addRun_types_mono _ _ _ _ _ _ h typ hp1
      · exact addRun_types_mono _ _ _ _ _ _ h typ (contains_insertS_self _ _)
      · cases h
        exact contains_insertS_self _ _
      · rename_i sname fields hkind
        split at h
        · cases h
        · rename_i g2 isC heqF
          have hp2 := addRun_types_mono _ _ _ _ _ _ heqF typ (contains_insertS_self _ _)
          split at h
          · split at h
            · cases h
            · rename_i nm' heqN
              split at h
              · cases h
              · cases h
                show (markCircular g2 typ isC).types.contains typ = true
                rw [markCircular_types]
                exact hp2
          · cases h
            rw [markCircular_types]
            exact hp2
      · cases h
        exact contains_insertS_self _ _

/-- The func branch of the registration walk, as one equation: the visited
mark plus the three unconditional map writes, returning `true`. -/
theorem addRun_func_eq (fuel : Nat) (u : Univ) (g : Generator) (typ : TypeId)
    (parent : Option TypeId) (name : String) (asy : Bool) (impl : String)
    (ins outs : List TypeId) (hk : (u.desc typ).kind = .func ins outs) :
    addRun (fuel+1) u g (.addT (some typ) parent name asy impl)
      = some ({ g with
                  types := insertS g.types typ
                  names := updateA g.names name typ
                  async := updateA g.async name asy
                  implementations := updateA g.implementations name impl }, true) := by
  simp only [addRun, hk, isFuncKind, Bool.not_true, Bool.and_false, Bool.false_eq_true,
    if_false]

/-- A second registration of an already-registered type is the identity on
the generator state. -/
theorem Add_again : ∀ (fuel : Nat) (u : Univ) (g : Generator) (t : TypeId) (g1 : Generator),
    Add fuel u g t = some g1 → ∀ f2 : Nat, Add (f2+1) u g1 t = some g1 := by
  intro fuel u g t g1 h f2
  by_cases hf : isFuncKind (u.desc t).kind = true
  · obtain ⟨ins, outs, hk⟩ : ∃ ins outs, (u.desc t).kind = .func ins outs := by
      cases hknd : (u.desc t).kind <;>
        first
          | exact ⟨_, _, rfl⟩
          | simp [isFuncKind, hknd] at hf
    cases fuel with
    | zero => simp [Add, addRun] at h
    | succ f =>
      rw [Add, addRun_func_eq f u g t none "" false "" ins outs hk] at h
      simp only [Option.map_some'] at h
      cases h
      rw [Add, addRun_func_eq f2 u _ t none "" false "" ins outs hk]
      simp only [Option.map_some', Option.some.injEq]
      rw [insertS_of_contains _ _ (contains_insertS_self _ _),
        updateA_of_lookupA_eq _ _ _ (lookupA_updateA_self _ _ _),
        updateA_of_lookupA_eq _ _ _ (lookupA_updateA_self _ _ _),
        updateA_of_lookupA_eq _ _ _ (lookupA_updateA_self _ _ _)]
  · have hff : isFuncKind (u.desc t).kind = false := by
      cases hb : isFuncKind (u.desc t).kind
      · rfl
      · exact absurd hb hf
    have hv : g1.types.contains t = true := by
      cases hadd : addRun fuel u g (.addT (some t) none "" false "") with
      | none => rw [Add, hadd] at h; cases h
      | some r =>
        rw [Add, hadd] at h
        simp only [Option.map_some'] at h
        cases h
        exact addRun_visits fuel u g t none "" false "" r.1 r.2 hadd
    have hcond : (g1.types.contains t && !(isFuncKind (u.desc t).kind)) = true := by
      rw [hv, hff]
      rfl
    rw [Add]
    simp only [addRun, hcond, if_true, Option.map_some']

/-- Claim C7: `Add` is idempotent per type identity — a second `Add` of the
same type leaves the generator state, hence the declaration set and every
rendered expression, unchanged. -/
theorem c7_add_idempotent :
    ∀ (fuel fuel2 df tf : Nat) (u : Univ) (g : Generator) (t : TypeId)
      (q : Option TypeId) (g1 g2 : Generator),
      Add fuel u g t = some g1 → Add fuel2 u g1 t = some g2 →
      g2 = g1 ∧ Declarations df u g2 = Declarations df u g1
        ∧ TypeOf tf u g2 q = TypeOf tf u g1 q := by
  intro fuel fuel2 df tf u g t q g1 g2 h1 h2
  cases fuel2 with
  | zero => simp [Add, addRun] at h2
  | succ f2 =>
    rw [Add_again fuel u g t g1 h1 f2] at h2
    obtain rfl : g1 = g2 := by injection h2
    exact ⟨rfl, rfl, rfl⟩

/-- Witness for idempotent registration at `uMyStruct`. -/
theorem c7_add_idempotent_witness :
    (Add 30 uMyStruct (New uMyStruct []) 0 = some gMyOff
      ∧ Add 30 uMyStruct gMyOff 0 = some gMyOff)
    ∧ (gMyOff = gMyOff ∧ Declarations 20 uMyStruct gMyOff = Declarations 20 uMyStruct gMyOff
        ∧ TypeOf 10 uMyStruct gMyOff (some 0) = TypeOf 10 uMyStruct gMyOff (some 0)) :=
  ⟨⟨rfl, rfl⟩,
    c7_add_idempotent 30 30 20 10 uMyStruct (New uMyStruct []) 0 (some 0) gMyOff gMyOff rfl rfl⟩

/-- The registry of `uDirect` after registering the self-pointing struct:
visited, marked circular, and named. -/
def gDir (n fn : String) (flat : Bool) : Generator :=
  { mkG (uDirect n fn) flat with
      types := [0, 1]
      circular := [0]
      symbols := [(0, n)]
      names := [(n, 0)] }

/-- The registry of `uSliceSelf` after registering the slice-of-self
struct. -/
def gSli (n fn : String) (flat : Bool) : Generator :=
  { mkG (uSliceSelf n fn) flat with
      types := [0, 1]
      circular := [0]
      symbols := [(0, n)]
      names := [(n, 0)] }

/-- The registry of `uMutual` after registering struct `a`: both structs
named (post-order, `b` first), but the `circular` table left empty. -/
def gMut (a fa b fb : String) : Generator :=
  { New (uMutual a fa b fb) [] with
      types := [0, 1, 2, 3]
      symbols := [(2, b), (0, a)]
      names := [(b, 2), (a, 0)] }

/-- Claim C1, amended: for a self-referential struct whose cycle returns to
the same named struct — directly through a pointer field or indirectly
through a slice — registration terminates in the shown registry, the type
is marked circular, and `TypeOf` renders the registered name whether or
not flatten is set.  For two structs each pointing to the other,
registration terminates and names both, but neither is marked circular
(`add`'s cycle test compares only against the innermost named ancestor),
and the name-reference rendering is guaranteed only with flatten off. -/
theorem c1_cycles_amended (n fn a fa b fb : String) (hn : n ≠ "") (ha : a ≠ "")
    (hb : b ≠ "") (hab : b ≠ a) :
    (∀ flat : Bool,
      Add 30 (uDirect n fn) (mkG (uDirect n fn) flat) 0 = some (gDir n fn flat)
      ∧ TypeOf 5 (uDirect n fn) (gDir n fn flat) (some 0) = some (n, 0, gDir n fn flat))
    ∧ (∀ flat : Bool,
      Add 30 (uSliceSelf n fn) (mkG (uSliceSelf n fn) flat) 0 = some (gSli n fn flat)
      ∧ TypeOf 5 (uSliceSelf n fn) (gSli n fn flat) (some 0) = some (n, 0, gSli n fn flat))
    ∧ (Add 30 (uMutual a fa b fb) (New (uMutual a fa b fb) []) 0 = some (gMut a fa b fb)
      ∧ (gMut a fa b fb).circular = []
      ∧ TypeOf 6 (uMutual a fa b fb) (gMut a fa b fb) (some 0) = some (a, 0, gMut a fa b fb)
      ∧ TypeOf 6 (uMutual a fa b fb) (gMut a fa b fb) (some 2) = some (b, 0, gMut a fa b fb)) := by
  have hn' : (n == "") = false := by simp [hn]
  have ha' : (a == "") = false := by simp [ha]
  have hb' : (b == "") = false := by simp [hb]
  have hab' : (b == a) = false := by simp [hab]
  refine ⟨fun flat => ⟨?_, ?_⟩, fun flat => ⟨?_, ?_⟩, ?_, rfl, ?_, ?_⟩
  · cases flat <;>
      simp [Add, addRun, uDirect, mkG, New, WithFlatten, seedTypers, Univ.desc, insertS, updateA,
        lookupA, isNameTaken, DefaultNamer, sequentialNamer, descName, countExported, hasTagOmit,
        isFuncKind, markCircular, gDir, hn', hn, List.contains]
  · cases flat <;>
      simp [TypeOf, render, uDirect, gDir, mkG, New, WithFlatten, seedTypers, Univ.desc,
        hasInterfaceTyper, hasInterfaceMarshaler, hasInterface, implTyper, lookupA, lookupD, hn,
        List.contains]
  · cases flat <;>
      simp [Add, addRun, uSliceSelf, mkG, New, WithFlatten, seedTypers, Univ.desc, insertS, updateA,
        lookupA, isNameTaken, DefaultNamer, sequentialNamer, descName, countExported, hasTagOmit,
        isFuncKind, markCircular, gSli, hn', hn, List.contains]
  · cases flat <;>
      simp [TypeOf, render, uSliceSelf, gSli, mkG, New, WithFlatten, seedTypers, Univ.desc,
        hasInterfaceTyper, hasInterfaceMarshaler, hasInterface, implTyper, lookupA, lookupD, hn,
        List.contains]
  · simp [Add, addRun, uMutual, New, seedTypers, Univ.desc, insertS, updateA,
      lookupA, isNameTaken, DefaultNamer, sequentialNamer, descName, countExported, hasTagOmit,
      isFuncKind, markCircular, gMut, ha, hb, hab, ha', hb', hab', List.contains]
  · simp [TypeOf, render, uMutual, gMut, New, seedTypers, Univ.desc,
      hasInterfaceTyper, hasInterfaceMarshaler, hasInterface, implTyper, lookupA, lookupD,
      ha, hb, hab, List.contains]
  · simp [TypeOf, render, uMutual, gMut, New, seedTypers, Univ.desc,
      hasInterfaceTyper, hasInterfaceMarshaler, hasInterface, implTyper, lookupA, lookupD,
      ha, hb, hab, List.contains]

/-- Witness for the amended cycle theorem at concrete names. -/
theorem c1_cycles_amended_witness :
    TypeOf 5 (uDirect "S" "F") (gDir "S" "F" true) (some 0) = some ("S", 0, gDir "S" "F" true)
    ∧ TypeOf 6 (uMutual "A" "FA" "B" "FB") (gMut "A" "FA" "B" "FB") (some 0)
        = some ("A", 0, gMut "A" "FA" "B" "FB") :=
  ⟨((c1_cycles_amended "S" "F" "A" "FA" "B" "FB" (by decide) (by decide) (by decide)
      (by decide)).1 true).2,
   (c1_cycles_amended "S" "F" "A" "FA" "B" "FB" (by decide) (by decide) (by decide)
      (by decide)).2.2.2.2.1⟩

end TsReflect
